import Mathlib

/-!
Shallow embedding of the mini-ast-parser repository: the scanner of
`src/Tokenizer.ts` and the recursive-descent module that defines the
`Parser` class, together with theorems settling the specification claims.
JavaScript numbers holding byte offsets are modelled as `Nat`; the
`Infinity` sentinel used for an unresolved node `end` gets its own
constructor; a JavaScript runtime `TypeError` (a property read on
`undefined`) and a non-terminating loop are modelled as explicit outcomes.
-/

namespace MiniAst

/-- Token type enumeration, from `TokenType` in `src/Tokenizer.ts`. -/
inductive TokenType where
  | Let
  | Assign
  | Function
  | Identifier
  | LeftParen
  | RightParen
  | LeftCurly
  | RightCurly
deriving DecidableEq, Repr

/-- The `Token` record of `src/Tokenizer.ts`.  `value` is optional there,
hence `Option String`.  The optional field `raw` is never written nor read
anywhere in the repository and is omitted. -/
structure Token where
  type : TokenType
  value : Option String
  start : Nat
  «end» : Nat
deriving DecidableEq, Repr

/-- Modelled from the spec: `isAlpha` is imported from `./utils`, a file
absent from the repository snapshot.  §4.1 item 2 speaks of a run of
consecutive alphabetic characters; alphabetic is modelled as an ASCII
letter.  No claim's verdict depends on this choice beyond letters `a`-`z`
being alphabetic and space, digits and punctuation not being so. -/
def isAlpha (c : Char) : Bool :=
  ('a' ≤ c && c ≤ 'z') || ('A' ≤ c && c ≤ 'Z')

/-- The entries of the `TOKENS_GENERATOR` record, each applied to a start
index alone, exactly as the keyword branch applies them.  The
`identifier` entry needs a second argument `value`; applied to a start
index alone it evaluates `value.length` with `value` undefined, a runtime
TypeError, modelled as `none`.  The final catch-all is unreachable: the
call is guarded by membership in `generatorKeys`.  The JavaScript `in`
test guarding this call would additionally see properties inherited from
`Object.prototype`; letter runs spelling such names are not modelled. -/
def TOKENS_GENERATOR_apply (key : String) (start : Nat) : Option Token :=
  if key = "let" then
    some { type := .Let, value := some "let", start := start, «end» := start + 3 }
  else if key = "assign" then
    some { type := .Assign, value := some "=", start := start, «end» := start + 1 }
  else if key = "function" then
    some { type := .Function, value := some "function", start := start, «end» := start + 8 }
  else if key = "leftParen" then
    some { type := .LeftParen, value := some "(", start := start, «end» := start + 1 }
  else if key = "rightParen" then
    some { type := .RightParen, value := some ")", start := start, «end» := start + 1 }
  else if key = "leftCurly" then
    some { type := .LeftCurly, value := some "\x7b", start := start, «end» := start + 1 }
  else if key = "rightCurly" then
    some { type := .RightCurly, value := some "\x7d", start := start, «end» := start + 1 }
  else if key = "identifier" then
    none
  else
    none

/-- The own keys of the `TOKENS_GENERATOR` record, the set the test
`identifier in TOKENS_GENERATOR` ranges over. -/
def generatorKeys : List String :=
  ["let", "assign", "function", "leftParen", "rightParen", "leftCurly",
   "rightCurly", "identifier"]

/-- `TOKENS_GENERATOR.identifier` applied to both of its arguments, as the
non-keyword branch applies it. -/
def TOKENS_GENERATOR_identifier (start : Nat) (value : String) : Token :=
  { type := .Identifier, value := some value, start := start,
    «end» := start + value.length }

/-- The character `LEFT CURLY BRACKET`. -/
def leftCurlyChar : Char := Char.ofNat 123

/-- The character `RIGHT CURLY BRACKET`. -/
def rightCurlyChar : Char := Char.ofNat 125

/-- The `KNOWN_SINGLE_CHAR_TOKENS` map: the five single-character tokens,
each built by the generator its map entry points to. -/
def KNOWN_SINGLE_CHAR_TOKENS (c : Char) (start : Nat) : Option Token :=
  if c = '(' then TOKENS_GENERATOR_apply "leftParen" start
  else if c = ')' then TOKENS_GENERATOR_apply "rightParen" start
  else if c = leftCurlyChar then TOKENS_GENERATOR_apply "leftCurly" start
  else if c = rightCurlyChar then TOKENS_GENERATOR_apply "rightCurly" start
  else if c = '=' then TOKENS_GENERATOR_apply "assign" start
  else none

/-- The inner `while (isAlpha(currentChar))` loop of `tokenize`: greedily
consume a maximal alphabetic run, returning the accumulated text and the
remaining characters.  Reading past the end of the source yields
`undefined` in JavaScript, which is not alphabetic; here the list simply
ends. -/
def scanAlpha : List Char → String → String × List Char
  | [], acc => (acc, [])
  | c :: cs, acc => if isAlpha c then scanAlpha cs (acc.push c) else (acc, c :: cs)

/-- Outcome of running `Tokenizer.tokenize`.  `hang` records that the
`while` loop re-enters an identical state and therefore never terminates;
`typeError` records a runtime TypeError; `fuelOut` is an artificial bound
that `tokenize` never reaches, since its step budget exceeds the input
length and every loop iteration that recurses consumes at least one
character. -/
inductive TokenizeResult where
  | tokens (ts : List Token)
  | typeError
  | hang
  | fuelOut
deriving DecidableEq, Repr

/-- The `while` loop of `Tokenizer.tokenize`, one fuel unit per iteration.
The three branches mirror the source: space, alphabetic run with the
keyword-table membership test, single-character token.  A character
matching no branch leaves `currentIndex` untouched, so the loop re-enters
the very same state and never terminates: `hang`. -/
def tokenizeLoop : Nat → List Char → Nat → TokenizeResult
  | 0, _, _ => .fuelOut
  | _, [], _ => .tokens []
  | fuel + 1, c :: cs, i =>
    if c = ' ' then
      tokenizeLoop fuel cs (i + 1)
    else if isAlpha c then
      let s := scanAlpha (c :: cs) ""
      let res : Option Token :=
        if s.1 ∈ generatorKeys then TOKENS_GENERATOR_apply s.1 i
        else some (TOKENS_GENERATOR_identifier i s.1)
      match res with
      | none => .typeError
      | some tok =>
        match tokenizeLoop fuel s.2 (i + s.1.length) with
        | .tokens ts => .tokens (tok :: ts)
        | r => r
    else
      match KNOWN_SINGLE_CHAR_TOKENS c i with
      | some tok =>
        match tokenizeLoop fuel cs (i + 1) with
        | .tokens ts => .tokens (tok :: ts)
        | r => r
      | none => .hang

/-- `Tokenizer.tokenize` on a source string: run the loop from index 0
with a step budget strictly larger than the input length. -/
def tokenize (source : String) : TokenizeResult :=
  tokenizeLoop (source.length + 1) source.data 0

/-- A JavaScript number holding a node's `end`: a finite byte offset, or
the `Infinity` sentinel the parser initializes unresolved `end` fields
with. -/
inductive NodeEnd where
  | fin (n : Nat)
  | infinity
deriving DecidableEq, Repr

/-- The `Identifier` AST node.  `name` is copied from the token's optional
`value` via a non-null assertion that does not check at runtime, hence
`Option String`. -/
structure Identifier where
  name : Option String
  start : Nat
  «end» : NodeEnd
deriving DecidableEq, Repr

mutual

/-- A `Statement` as the `Parser` class actually produces it: the only
statement form is `VariableDeclaration` with its `kind` (the `let` token's
optional `value`), its declarator list, and its span. -/
inductive Statement where
  | variableDeclaration (kind : Option String)
      (declarations : List VariableDeclarator) (start : Nat) («end» : NodeEnd)

/-- A `VariableDeclarator` node: `id`, `init` (always a function
expression in this grammar), and its span. -/
inductive VariableDeclarator where
  | mk (id : Identifier) (init : FunctionExpression) (start : Nat) («end» : NodeEnd)

/-- A `FunctionExpression` node: optional `id` (`null` for an anonymous
function literal is modelled as `none`), the parameter identifiers, the
block body, and its span. -/
inductive FunctionExpression where
  | mk (id : Option Identifier) (params : List Identifier)
      (body : BlockStatement) (start : Nat) («end» : NodeEnd)

/-- A `BlockStatement` node: its statement list and span. -/
inductive BlockStatement where
  | mk (body : List Statement) (start : Nat) («end» : NodeEnd)

end

/-- The `end` field of a statement node. -/
def Statement.«end» : Statement → NodeEnd
  | .variableDeclaration _ _ _ e => e

/-- The `body` field of a function expression. -/
def FunctionExpression.body : FunctionExpression → BlockStatement
  | .mk _ _ b _ _ => b

/-- The `end` field of a function expression. -/
def FunctionExpression.«end» : FunctionExpression → NodeEnd
  | .mk _ _ _ _ e => e

/-- The `end` field of a block statement. -/
def BlockStatement.«end» : BlockStatement → NodeEnd
  | .mk _ _ e => e

/-- The `Program` AST node. -/
structure Program where
  body : List Statement
  start : Nat
  «end» : NodeEnd

/-- How the parse can fail.  `unexpected` is the descriptive error thrown
by the token-consumption primitive (expected type or types, actual type);
`unexpectedStmt` is the statement dispatcher's error; `undef` is a runtime
TypeError, a property read on `undefined` when the cursor is past the end
of the token list; `fuelOut` is an artificial bound never reached at the
budget `parse` supplies for its inputs of interest. -/
inductive ParseErr where
  | unexpected (expected : List TokenType) (actual : TokenType)
  | unexpectedStmt (actual : TokenType)
  | undef
  | fuelOut
deriving DecidableEq, Repr

/-- The `Parser` instance state: the token list (the constructor copies
the caller's array, value-identical) and the cursor `#currentIndex`. -/
structure PState where
  tokens : List Token
  currentIndex : Nat
deriving DecidableEq, Repr

/-- The `#isEnd` getter. -/
def PState.isEnd (st : PState) : Bool :=
  st.tokens.length ≤ st.currentIndex

/-- The `#currentToken` getter: the array read `#tokens[#currentIndex]`,
`undefined` (here `none`) when the cursor is out of range. -/
def PState.currentToken? (st : PState) : Option Token :=
  st.tokens.get? st.currentIndex

/-- The `#previousToken` getter: the array read `#tokens[#currentIndex - 1]`,
`undefined` when the cursor is at 0 (index -1). -/
def PState.previousToken? (st : PState) : Option Token :=
  if st.currentIndex = 0 then none else st.tokens.get? (st.currentIndex - 1)

/-- The argument of `#checkCurrentTokenType` and `#goNext`: either a
single token type or an array of token types. -/
inductive Expected where
  | single (t : TokenType)
  | set (ts : List TokenType)

/-- `#checkCurrentTokenType`: `false` at the end of the stream, otherwise
an equality or membership test on the current token's type. -/
def checkCurrentTokenType (st : PState) (e : Expected) : Bool :=
  if st.isEnd then false
  else
    match st.currentToken? with
    | none => false
    | some tok =>
      match e with
      | .single t => tok.type = t
      | .set ts => tok.type ∈ ts

/-- `#goNext`: reads the current token's `type` (a TypeError when the
cursor is past the end).  When given an array whose members do not include
the current type, it throws the descriptive error; when the members do
include it, execution falls through to the second comparison
`currentType !== type`, which compares a string with an array and is
therefore also true, so the array form always throws.  Only the
single-type form can succeed: advance the cursor and return the token. -/
def goNext (st : PState) (e : Expected) : Except ParseErr (Token × PState) :=
  match st.currentToken? with
  | none => .error .undef
  | some tok =>
    match e with
    | .set ts =>
      if tok.type ∈ ts then .error (.unexpected ts tok.type)
      else .error (.unexpected ts tok.type)
    | .single t =>
      if tok.type = t then
        .ok (tok, { st with currentIndex := st.currentIndex + 1 })
      else .error (.unexpected [t] tok.type)

/-- `#parseIdentifier`: build the node from the current token (a
TypeError when the cursor is past the end), then consume an `Identifier`
token. -/
def parseIdentifier (st : PState) : Except ParseErr (Identifier × PState) :=
  match st.currentToken? with
  | none => .error .undef
  | some tok =>
    match goNext st (.single .Identifier) with
    | .error e => .error e
    | .ok (_, st') =>
      .ok ({ name := tok.value, start := tok.start, «end» := .fin tok.«end» },
        st')

/-- The `while (!check(RightParen))` loop of `#parseParam`, one fuel unit
per iteration. -/
def parseParamLoop : Nat → PState → Except ParseErr (List Identifier × PState)
  | 0, _ => .error .fuelOut
  | fuel + 1, st =>
    if checkCurrentTokenType st (.single .RightParen) then .ok ([], st)
    else
      match parseIdentifier st with
      | .error e => .error e
      | .ok (idNode, st') =>
        match parseParamLoop fuel st' with
        | .error e => .error e
        | .ok (rest, st'') => .ok (idNode :: rest, st'')

/-- `#parseParam`: consume `(`, parse identifiers until the current token
is `)`, consume `)`. -/
def parseParam (fuel : Nat) (st : PState) :
    Except ParseErr (List Identifier × PState) :=
  match goNext st (.single .LeftParen) with
  | .error e => .error e
  | .ok (_, st1) =>
    match parseParamLoop fuel st1 with
    | .error e => .error e
    | .ok (params, st2) =>
      match goNext st2 (.single .RightParen) with
      | .error e => .error e
      | .ok (_, st3) => .ok (params, st3)

mutual

/-- `#parseStatement`: dispatch on the current token; only `Let` starts a
statement.  In the failure branch the source reads
`this.#currentToken.type`, a TypeError when the cursor is past the end. -/
def parseStatement : Nat → PState → Except ParseErr (Statement × PState)
  | 0, _ => .error .fuelOut
  | fuel + 1, st =>
    if checkCurrentTokenType st (.single .Let) then
      parseVariableDeclaration fuel st
    else
      match st.currentToken? with
      | none => .error .undef
      | some tok => .error (.unexpectedStmt tok.type)

/-- `#parseVariableDeclaration`: read `kind` from the current token's
`value` (destructuring `undefined` is a TypeError), consume `let`, parse
the declarator's identifier, consume `=`, parse the initializer function
expression, close the declarator at `init.end` (the ternary
`init ? init.end : id.end` always takes its first branch here) and the
declaration at the previous token's `end`. -/
def parseVariableDeclaration : Nat → PState → Except ParseErr (Statement × PState)
  | 0, _ => .error .fuelOut
  | fuel + 1, st =>
    match st.currentToken? with
    | none => .error .undef
    | some cur =>
      match goNext st (.single .Let) with
      | .error e => .error e
      | .ok (_, st1) =>
        match parseIdentifier st1 with
        | .error e => .error e
        | .ok (idNode, st2) =>
          match goNext st2 (.single .Assign) with
          | .error e => .error e
          | .ok (_, st3) =>
            match parseFunctionExpression fuel st3 with
            | .error e => .error e
            | .ok (initFe, st4) =>
              match st4.previousToken? with
              | none => .error .undef
              | some prev =>
                .ok (.variableDeclaration cur.value
                  [.mk idNode initFe cur.start initFe.«end»]
                  cur.start (.fin prev.«end»), st4)

/-- `#parseFunctionExpression`: read `start` from the current token
(destructuring `undefined` is a TypeError), consume `function`, consume an
optional name only if the next token is an `Identifier`, parse the
parameter list and the block body; the node's `end` is the body's `end`. -/
def parseFunctionExpression : Nat → PState → Except ParseErr (FunctionExpression × PState)
  | 0, _ => .error .fuelOut
  | fuel + 1, st =>
    match st.currentToken? with
    | none => .error .undef
    | some cur =>
      match goNext st (.single .Function) with
      | .error e => .error e
      | .ok (_, st1) =>
        match
          (if checkCurrentTokenType st1 (.single .Identifier) then
            match parseIdentifier st1 with
            | .error e => .error e
            | .ok (idNode, s) => .ok (some idNode, s)
          else .ok (none, st1) :
            Except ParseErr (Option Identifier × PState)) with
        | .error e => .error e
        | .ok (id, st2) =>
          match parseParam fuel st2 with
          | .error e => .error e
          | .ok (params, st3) =>
            match parseBlockStatement fuel st3 with
            | .error e => .error e
            | .ok (body, st4) =>
              .ok (.mk id params body cur.start body.«end», st4)

/-- `#parseBlockStatement`: read `start` from the current token
(destructuring `undefined` is a TypeError), consume the opening curly,
parse statements until the current token is the closing curly, record the
block's `end` as that token's `end` (the read is in range whenever the
loop exits normally; the `none` arm models the TypeError it would
otherwise be), then consume the closing curly. -/
def parseBlockStatement : Nat → PState → Except ParseErr (BlockStatement × PState)
  | 0, _ => .error .fuelOut
  | fuel + 1, st =>
    match st.currentToken? with
    | none => .error .undef
    | some cur =>
      match goNext st (.single .LeftCurly) with
      | .error e => .error e
      | .ok (_, st1) =>
        match parseBlockLoop fuel st1 with
        | .error e => .error e
        | .ok (body, st2) =>
          match st2.currentToken? with
          | none => .error .undef
          | some closeTok =>
            match goNext st2 (.single .RightCurly) with
            | .error e => .error e
            | .ok (_, st3) =>
              .ok (.mk body cur.start (.fin closeTok.«end»), st3)

/-- The `while (!check(RightCurly))` loop of `#parseBlockStatement`, one
fuel unit per iteration. -/
def parseBlockLoop : Nat → PState → Except ParseErr (List Statement × PState)
  | 0, _ => .error .fuelOut
  | fuel + 1, st =>
    if checkCurrentTokenType st (.single .RightCurly) then .ok ([], st)
    else
      match parseStatement fuel st with
      | .error e => .error e
      | .ok (s, st') =>
        match parseBlockLoop fuel st' with
        | .error e => .error e
        | .ok (rest, st'') => .ok (s :: rest, st'')

end

/-- The `while (!this.#isEnd)` loop of `#parseProgram`: parse statements
until the stream is exhausted; when a parsed statement exhausts the
stream, the program's `end` becomes that statement's `end`; a program with
no statements keeps the `Infinity` sentinel. -/
def parseProgramLoop : Nat → PState → Except ParseErr (List Statement × NodeEnd × PState)
  | 0, _ => .error .fuelOut
  | fuel + 1, st =>
    if st.isEnd then .ok ([], .infinity, st)
    else
      match parseStatement fuel st with
      | .error e => .error e
      | .ok (node, st') =>
        if st'.isEnd then .ok ([node], node.«end», st')
        else
          match parseProgramLoop fuel st' with
          | .error e => .error e
          | .ok (rest, e, st'') => .ok (node :: rest, e, st'')

/-- `#parseProgram`: the program starts at 0 with the `Infinity` sentinel
for `end`, resolved by the loop as described above. -/
def parseProgram (fuel : Nat) (st : PState) : Except ParseErr (Program × PState) :=
  match parseProgramLoop fuel st with
  | .error e => .error e
  | .ok (body, e, st') => .ok ({ body := body, start := 0, «end» := e }, st')

/-- The fuel budget `parse` supplies: ample for any token list, since
every cycle through the mutual parse functions consumes at least one
token and costs a bounded number of fuel units. -/
def parserFuel (tokens : List Token) : Nat :=
  8 * tokens.length + 8

/-- `Parser.parse` on a token list: the constructor copies the caller's
array (`[...tokens]`, value-identical here) and starts the cursor at 0;
the result is the program alone, the final state being internal. -/
def parse (tokens : List Token) : Except ParseErr Program :=
  match parseProgram (parserFuel tokens) { tokens := tokens, currentIndex := 0 } with
  | .error e => .error e
  | .ok (prog, _) => .ok prog

/-- The two stages composed, as `parse(tokenize(source))`: `none` when the
scanner never hands a token list over (it hangs or throws). -/
def runParse (source : String) : Option (Except ParseErr Program) :=
  match tokenize source with
  | .tokens ts => some (parse ts)
  | _ => none

/-- Modelled from the spec: the scanner of §4.1, whose keyword lookup is
against the closed set of reserved spellings `let` and `function` alone
(item 2), and which silently skips an unrecognized character (item 4).
Identical to `tokenizeLoop` in every other respect. -/
def tokenizeSpecLoop : Nat → List Char → Nat → Option (List Token)
  | 0, _, _ => none
  | _, [], _ => some []
  | fuel + 1, c :: cs, i =>
    if c = ' ' then
      tokenizeSpecLoop fuel cs (i + 1)
    else if isAlpha c then
      let s := scanAlpha (c :: cs) ""
      let tok : Token :=
        if s.1 = "let" then
          { type := .Let, value := some "let", start := i, «end» := i + 3 }
        else if s.1 = "function" then
          { type := .Function, value := some "function", start := i, «end» := i + 8 }
        else TOKENS_GENERATOR_identifier i s.1
      match tokenizeSpecLoop fuel s.2 (i + s.1.length) with
      | none => none
      | some ts => some (tok :: ts)
    else
      match KNOWN_SINGLE_CHAR_TOKENS c i with
      | some tok =>
        match tokenizeSpecLoop fuel cs (i + 1) with
        | none => none
        | some ts => some (tok :: ts)
      | none => tokenizeSpecLoop fuel cs (i + 1)

/-- Modelled from the spec: `tokenize` as §4.1 describes it.  The step
budget exceeds the input length and every iteration consumes at least one
character, so the `none` of an exhausted budget is never returned. -/
def tokenizeSpec (source : String) : Option (List Token) :=
  tokenizeSpecLoop (source.length + 1) source.data 0

/-- The type sequence of a token list. -/
def tokenTypes (ts : List Token) : List TokenType :=
  ts.map (·.type)

/-- Greedily drop the leading `Identifier` types: the `Identifier*` inside
a parameter list (the next terminal, `)`, is not an identifier, so greedy
matching is exact). -/
def dropIdents : List TokenType → List TokenType
  | .Identifier :: rest => dropIdents rest
  | l => l

mutual

/-- Modelled from the spec: the production
`FunctionExpression := "function" Identifier? "(" Identifier* ")" BlockStatement`
of §4.2, as a matcher on token-type sequences returning the unconsumed
remainder.  The grammar is LL(1), so the greedy treatment of `Identifier?`
and `Identifier*` is exact. -/
def matchFunctionExpr : Nat → List TokenType → Option (List TokenType)
  | 0, _ => none
  | fuel + 1, ts =>
    match ts with
    | .Function :: rest =>
      let rest1 := match rest with
        | .Identifier :: r => r
        | _ => rest
      match rest1 with
      | .LeftParen :: r2 =>
        match dropIdents r2 with
        | .RightParen :: r3 => matchBlock fuel r3
        | _ => none
      | _ => none
    | _ => none

/-- Modelled from the spec: the production
`BlockStatement := "\x7b" Statement* "\x7d"` of §4.2. -/
def matchBlock : Nat → List TokenType → Option (List TokenType)
  | 0, _ => none
  | fuel + 1, ts =>
    match ts with
    | .LeftCurly :: rest =>
      match matchStmts fuel rest with
      | some (.RightCurly :: r) => some r
      | _ => none
    | _ => none

/-- Modelled from the spec: `Statement*` where
`Statement := VariableDeclaration := "let" Identifier "=" FunctionExpression`
per §4.2; a sequence not starting with `Let` derives zero statements. -/
def matchStmts : Nat → List TokenType → Option (List TokenType)
  | 0, _ => none
  | fuel + 1, ts =>
    match ts with
    | .Let :: .Identifier :: .Assign :: rest =>
      match matchFunctionExpr fuel rest with
      | some r => matchStmts fuel r
      | none => none
    | _ => some ts

end

/-- Modelled from the spec: `Program := Statement*` of §4.2 against a full
token-type sequence, counting the top-level statements; `some n` exactly
when the sequence is accepted with `n` top-level `let` declarations. -/
def countTopStmts : Nat → List TokenType → Option Nat
  | 0, _ => none
  | fuel + 1, ts =>
    match ts with
    | [] => some 0
    | .Let :: .Identifier :: .Assign :: rest =>
      match matchFunctionExpr fuel rest with
      | some r =>
        match countTopStmts fuel r with
        | some n => some (n + 1)
        | none => none
      | none => none
    | _ => none

/-- Modelled from the spec: acceptance of a token-type sequence by the
grammar of §4.2, with the number of top-level declarations.  The budget
exceeds the sequence length; every counted statement consumes tokens. -/
def specAccepts (ts : List TokenType) : Option Nat :=
  countTopStmts (ts.length + 1) ts

/-- Modelled from the spec: a source string is accepted by the grammar
with `n` top-level `let` declarations when the scanner of §4.1 turns it
into a token sequence the grammar of §4.2 derives with `n` top-level
statements. -/
def specAcceptsSrc (source : String) : Option Nat :=
  match tokenizeSpec source with
  | none => none
  | some ts => specAccepts (tokenTypes ts)

/-- The token list of the source `let a = function() \x7b\x7d`, spec
Example 1. -/
def exampleTokens : List Token :=
  [{ type := .Let, value := some "let", start := 0, «end» := 3 },
   { type := .Identifier, value := some "a", start := 4, «end» := 5 },
   { type := .Assign, value := some "=", start := 6, «end» := 7 },
   { type := .Function, value := some "function", start := 8, «end» := 16 },
   { type := .LeftParen, value := some "(", start := 16, «end» := 17 },
   { type := .RightParen, value := some ")", start := 17, «end» := 18 },
   { type := .LeftCurly, value := some "\x7b", start := 19, «end» := 20 },
   { type := .RightCurly, value := some "\x7d", start := 20, «end» := 21 }]

/-- The block statement node the parse of Example 1 produces. -/
def exampleBlock : BlockStatement := .mk [] 19 (.fin 21)

/-- The function expression node the parse of Example 1 produces. -/
def exampleFun : FunctionExpression := .mk none [] exampleBlock 8 (.fin 21)

/-- The variable declaration the parse of Example 1 produces. -/
def exampleDecl : Statement :=
  .variableDeclaration (some "let")
    [.mk { name := some "a", start := 4, «end» := .fin 5 } exampleFun 0 (.fin 21)]
    0 (.fin 21)

/-- The program the parse of Example 1 produces. -/
def exampleProgram : Program :=
  { body := [exampleDecl], start := 0, «end» := .fin 21 }

/-- A successful `#goNext` on a single expected type reads the current
token, checks its type, and advances the cursor by one on the same token
list. -/
theorem goNext_single_ok {st : PState} {ty : TokenType} {tok : Token} {st' : PState}
    (h : goNext st (.single ty) = .ok (tok, st')) :
    st.currentToken? = some tok ∧ tok.type = ty ∧
      st' = { st with currentIndex := st.currentIndex + 1 } := by
  simp only [goNext] at h
  cases hc : st.currentToken? with
  | none => rw [hc] at h; exact Except.noConfusion h
  | some t =>
    rw [hc] at h
    simp only at h
    split at h
    · rename_i hty
      rw [Except.ok.injEq, Prod.mk.injEq] at h
      obtain ⟨h1, h2⟩ := h
      subst h1; subst h2
      exact ⟨rfl, hty, rfl⟩
    · exact Except.noConfusion h

/-- A successful `#parseIdentifier` advances the cursor by one on the same
token list. -/
theorem parseIdentifier_ok {st : PState} {idn : Identifier} {st' : PState}
    (h : parseIdentifier st = .ok (idn, st')) :
    st'.tokens = st.tokens ∧ st'.currentIndex = st.currentIndex + 1 := by
  simp only [parseIdentifier] at h
  split at h
  · exact Except.noConfusion h
  · split at h
    · exact Except.noConfusion h
    · rename_i tok htok tk st2 hg
      rw [Except.ok.injEq, Prod.mk.injEq] at h
      obtain ⟨-, h2⟩ := h
      subst h2
      obtain ⟨-, -, hst⟩ := goNext_single_ok hg
      subst hst
      exact ⟨rfl, rfl⟩

/-- The parameter-list loop never touches the token list and never moves
the cursor backward. -/
theorem parseParamLoop_invariant :
    ∀ (fuel : Nat) (st : PState) (r : List Identifier × PState),
      parseParamLoop fuel st = .ok r →
        r.2.tokens = st.tokens ∧ st.currentIndex ≤ r.2.currentIndex := by
  intro fuel
  induction fuel with
  | zero => intro st r h; exact Except.noConfusion h
  | succ f ih =>
    intro st r h
    simp only [parseParamLoop] at h
    split at h
    · rw [Except.ok.injEq] at h
      subst h
      exact ⟨rfl, Nat.le_refl _⟩
    · split at h
      · exact Except.noConfusion h
      · rename_i idn st1 hid
        split at h
        · exact Except.noConfusion h
        · rename_i rest st2 hloop
          rw [Except.ok.injEq] at h
          subst h
          obtain ⟨ht1, hi1⟩ := parseIdentifier_ok hid
          obtain ⟨ht2, hi2⟩ := ih st1 (rest, st2) hloop
          have ht2' : st2.tokens = st1.tokens := ht2
          have hi2' : st1.currentIndex ≤ st2.currentIndex := hi2
          refine ⟨?_, ?_⟩
          · show st2.tokens = st.tokens
            rw [ht2', ht1]
          · show st.currentIndex ≤ st2.currentIndex
            omega

/-- `#parseParam` never touches the token list and never moves the cursor
backward. -/
theorem parseParam_invariant (fuel : Nat) (st : PState)
    (r : List Identifier × PState) (h : parseParam fuel st = .ok r) :
    r.2.tokens = st.tokens ∧ st.currentIndex ≤ r.2.currentIndex := by
  simp only [parseParam] at h
  split at h
  · exact Except.noConfusion h
  · rename_i t1 st1 hg1
    split at h
    · exact Except.noConfusion h
    · rename_i params st2 hloop
      split at h
      · exact Except.noConfusion h
      · rename_i t3 st3 hg3
        rw [Except.ok.injEq] at h
        subst h
        obtain ⟨-, -, hst1⟩ := goNext_single_ok hg1
        obtain ⟨ht2, hi2⟩ := parseParamLoop_invariant fuel st1 (params, st2) hloop
        obtain ⟨-, -, hst3⟩ := goNext_single_ok hg3
        have t1 : st1.tokens = st.tokens := by rw [hst1]
        have i1 : st1.currentIndex = st.currentIndex + 1 := by rw [hst1]
        have t3 : st3.tokens = st2.tokens := by rw [hst3]
        have i3 : st3.currentIndex = st2.currentIndex + 1 := by rw [hst3]
        have ht2' : st2.tokens = st1.tokens := ht2
        have hi2' : st1.currentIndex ≤ st2.currentIndex := hi2
        refine ⟨?_, ?_⟩
        · show st3.tokens = st.tokens
          rw [t3, ht2', t1]
        · show st.currentIndex ≤ st3.currentIndex
          omega

/-- Across the mutual parse functions, a success never touches the token
list and never moves the cursor backward. -/
theorem parseFuns_invariant :
    ∀ fuel : Nat,
      (∀ st r, parseStatement fuel st = .ok r →
        r.2.tokens = st.tokens ∧ st.currentIndex ≤ r.2.currentIndex) ∧
      (∀ st r, parseVariableDeclaration fuel st = .ok r →
        r.2.tokens = st.tokens ∧ st.currentIndex ≤ r.2.currentIndex) ∧
      (∀ st r, parseFunctionExpression fuel st = .ok r →
        r.2.tokens = st.tokens ∧ st.currentIndex ≤ r.2.currentIndex) ∧
      (∀ st r, parseBlockStatement fuel st = .ok r →
        r.2.tokens = st.tokens ∧ st.currentIndex ≤ r.2.currentIndex) ∧
      (∀ st r, parseBlockLoop fuel st = .ok r →
        r.2.tokens = st.tokens ∧ st.currentIndex ≤ r.2.currentIndex) := by
  intro fuel
  induction fuel with
  | zero =>
    refine ⟨?_, ?_, ?_, ?_, ?_⟩ <;> intro st r h <;> exact Except.noConfusion h
  | succ f ih =>
    obtain ⟨ihS, ihV, ihF, ihB, ihL⟩ := ih
    refine ⟨?_, ?_, ?_, ?_, ?_⟩
    · intro st r h
      simp only [parseStatement] at h
      split at h
      · exact ihV st r h
      · split at h
        · exact Except.noConfusion h
        · exact Except.noConfusion h
    · intro st r h
      simp only [parseVariableDeclaration] at h
      split at h
      · exact Except.noConfusion h
      · rename_i cur hcur
        split at h
        · exact Except.noConfusion h
        · rename_i v1 st1 hg1
          split at h
          · exact Except.noConfusion h
          · rename_i idn st2 hid
            split at h
            · exact Except.noConfusion h
            · rename_i v3 st3 hg3
              split at h
              · exact Except.noConfusion h
              · rename_i initFe st4 hfe
                split at h
                · exact Except.noConfusion h
                · rename_i prev hprev
                  rw [Except.ok.injEq] at h
                  subst h
                  obtain ⟨-, -, hst1⟩ := goNext_single_ok hg1
                  obtain ⟨ht2, hi2⟩ := parseIdentifier_ok hid
                  obtain ⟨-, -, hst3⟩ := goNext_single_ok hg3
                  obtain ⟨ht4, hi4⟩ := ihF st3 (initFe, st4) hfe
                  have t1 : st1.tokens = st.tokens := by rw [hst1]
                  have i1 : st1.currentIndex = st.currentIndex + 1 := by rw [hst1]
                  have t3 : st3.tokens = st2.tokens := by rw [hst3]
                  have i3 : st3.currentIndex = st2.currentIndex + 1 := by rw [hst3]
                  have ht4' : st4.tokens = st3.tokens := ht4
                  have hi4' : st3.currentIndex ≤ st4.currentIndex := hi4
                  refine ⟨?_, ?_⟩
                  · show st4.tokens = st.tokens
                    rw [ht4', t3, ht2, t1]
                  · show st.currentIndex ≤ st4.currentIndex
                    omega
    · intro st r h
      simp only [parseFunctionExpression] at h
      split at h
      · exact Except.noConfusion h
      · rename_i cur hcur
        split at h
        · exact Except.noConfusion h
        · rename_i v1 st1 hg1
          split at h
          · exact Except.noConfusion h
          · rename_i id st2 heq
            split at h
            · exact Except.noConfusion h
            · rename_i params st3 hpp
              split at h
              · exact Except.noConfusion h
              · rename_i body st4 hbs
                have hopt : st2.tokens = st1.tokens ∧
                    st1.currentIndex ≤ st2.currentIndex := by
                  split at heq
                  · split at heq
                    · exact Except.noConfusion heq
                    · rename_i idn s hpid
                      rw [Except.ok.injEq, Prod.mk.injEq] at heq
                      obtain ⟨-, h2⟩ := heq
                      subst h2
                      obtain ⟨ha, hb⟩ := parseIdentifier_ok hpid
                      exact ⟨ha, by omega⟩
                  · rw [Except.ok.injEq, Prod.mk.injEq] at heq
                    obtain ⟨-, h2⟩ := heq
                    subst h2
                    exact ⟨rfl, Nat.le_refl _⟩
                rw [Except.ok.injEq] at h
                subst h
                obtain ⟨-, -, hst1⟩ := goNext_single_ok hg1
                obtain ⟨ht3, hi3⟩ := parseParam_invariant f st2 (params, st3) hpp
                obtain ⟨ht4, hi4⟩ := ihB st3 (body, st4) hbs
                have t1 : st1.tokens = st.tokens := by rw [hst1]
                have i1 : st1.currentIndex = st.currentIndex + 1 := by rw [hst1]
                have ht3' : st3.tokens = st2.tokens := ht3
                have hi3' : st2.currentIndex ≤ st3.currentIndex := hi3
                have ht4' : st4.tokens = st3.tokens := ht4
                have hi4' : st3.currentIndex ≤ st4.currentIndex := hi4
                refine ⟨?_, ?_⟩
                · show st4.tokens = st.tokens
                  rw [ht4', ht3', hopt.1, t1]
                · show st.currentIndex ≤ st4.currentIndex
                  have := hopt.2
                  omega
    · intro st r h
      simp only [parseBlockStatement] at h
      split at h
      · exact Except.noConfusion h
      · rename_i cur hcur
        split at h
        · exact Except.noConfusion h
        · rename_i v1 st1 hg1
          split at h
          · exact Except.noConfusion h
          · rename_i body st2 hloop
            split at h
            · exact Except.noConfusion h
            · rename_i closeTok hclose
              split at h
              · exact Except.noConfusion h
              · rename_i v3 st3 hg3
                rw [Except.ok.injEq] at h
                subst h
                obtain ⟨-, -, hst1⟩ := goNext_single_ok hg1
                obtain ⟨ht2, hi2⟩ := ihL st1 (body, st2) hloop
                obtain ⟨-, -, hst3⟩ := goNext_single_ok hg3
                have t1 : st1.tokens = st.tokens := by rw [hst1]
                have i1 : st1.currentIndex = st.currentIndex + 1 := by rw [hst1]
                have t3 : st3.tokens = st2.tokens := by rw [hst3]
                have i3 : st3.currentIndex = st2.currentIndex + 1 := by rw [hst3]
                have ht2' : st2.tokens = st1.tokens := ht2
                have hi2' : st1.currentIndex ≤ st2.currentIndex := hi2
                refine ⟨?_, ?_⟩
                · show st3.tokens = st.tokens
                  rw [t3, ht2', t1]
                · show st.currentIndex ≤ st3.currentIndex
                  omega
    · intro st r h
      simp only [parseBlockLoop] at h
      split at h
      · rw [Except.ok.injEq] at h
        subst h
        exact ⟨rfl, Nat.le_refl _⟩
      · split at h
        · exact Except.noConfusion h
        · rename_i s st1 hstmt
          split at h
          · exact Except.noConfusion h
          · rename_i rest st2 hloop
            rw [Except.ok.injEq] at h
            subst h
            obtain ⟨ht1, hi1⟩ := ihS st (s, st1) hstmt
            obtain ⟨ht2, hi2⟩ := ihL st1 (rest, st2) hloop
            have ht1' : st1.tokens = st.tokens := ht1
            have hi1' : st.currentIndex ≤ st1.currentIndex := hi1
            have ht2' : st2.tokens = st1.tokens := ht2
            have hi2' : st1.currentIndex ≤ st2.currentIndex := hi2
            refine ⟨?_, ?_⟩
            · show st2.tokens = st.tokens
              rw [ht2', ht1']
            · show st.currentIndex ≤ st2.currentIndex
              omega

/-- The top-level statement loop of `#parseProgram` never touches the
token list. -/
theorem parseProgramLoop_invariant :
    ∀ (fuel : Nat) (st : PState) (r : List Statement × NodeEnd × PState),
      parseProgramLoop fuel st = .ok r → r.2.2.tokens = st.tokens := by
  intro fuel
  induction fuel with
  | zero => intro st r h; exact Except.noConfusion h
  | succ f ih =>
    intro st r h
    simp only [parseProgramLoop] at h
    split at h
    · rw [Except.ok.injEq] at h
      subst h
      rfl
    · split at h
      · exact Except.noConfusion h
      · rename_i node st' hstmt
        split at h
        · rw [Except.ok.injEq] at h
          subst h
          exact ((parseFuns_invariant f).1 st (node, st') hstmt).1
        · split at h
          · exact Except.noConfusion h
          · rename_i rest e st'' hloop
            rw [Except.ok.injEq] at h
            subst h
            have h1 : st'.tokens = st.tokens :=
              ((parseFuns_invariant f).1 st (node, st') hstmt).1
            have h2 : st''.tokens = st'.tokens := ih st' (rest, e, st'') hloop
            show st''.tokens = st.tokens
            rw [h2, h1]

/-- Claim C1: the spec says `tokenize` is total — every input terminates
and returns a token sequence, and a character that is no space, no letter
and none of the five single-character tokens is silently skipped.  The
code disagrees twice: on `"1"` no branch of the loop body fires and the
cursor never advances, so the loop re-enters the same state forever; on
`"identifier"` the keyword-table lookup calls the `identifier` generator
without its `value` argument, a runtime TypeError. -/
theorem c1_tokenize_not_total :
    tokenize "1" = .hang ∧ tokenize "identifier" = .typeError :=
  ⟨rfl, rfl⟩

/-- Claim C2: the spec says a maximal alphabetic run produces a keyword
token exactly when it spells `let` or `function`, and otherwise an
`Identifier` token whose value is the scanned text with span
`[start, start + length)`.  The code instead looks the run up among all
the generator-table keys: the run `assign` produces an `Assign` token
with value `=` and span `[0, 1)` instead of an `Identifier` token with
value `assign` and span `[0, 6)`. -/
theorem c2_keyword_table_leak :
    tokenize "assign" =
      .tokens [{ type := .Assign, value := some "=", start := 0, «end» := 1 }] :=
  rfl

/-- Claim C3: the spec says `parse` either returns a `Program` or fails
with the descriptive unexpected-token error carrying expected and actual
types, in particular on the token sequence of `let a =`.  The code
instead reads a property of `undefined` there: after consuming `=`,
`#parseFunctionExpression` destructures `this.#currentToken` with the
cursor past the end of the token list — a TypeError, not the descriptive
error. -/
theorem c3_end_of_stream_failure :
    runParse "let a =" = some (.error .undef) :=
  rfl

/-- Claim C4: the spec says every source the grammar accepts parses
successfully with one `body` entry per top-level `let` declaration.  The
source `let assign = function() \x7b\x7d` is accepted with one top-level
declaration (per §4.1 the reserved spellings are only `let` and
`function`, so `assign` scans to an `Identifier` token), yet the code's
scanner turns `assign` into an `Assign` token and the parse fails with
Expect Identifier, but got Assign. -/
theorem c4_accepted_source_fails :
    specAcceptsSrc "let assign = function() \x7b\x7d" = some 1 ∧
      runParse "let assign = function() \x7b\x7d" =
        some (.error (.unexpected [.Identifier] .Assign)) :=
  ⟨rfl, rfl⟩

/-- Claim C5: the spec says the token-consumption primitive, given a set
of expected types whose member the current token's type is, succeeds —
advances the cursor and returns the token.  In the code the array form
always throws: after the membership test passes, the comparison
`currentType !== type` compares a string with an array and is true, so
`#goNext` throws `Expect Identifier, but got Identifier` even on a
match. -/
theorem c5_goNext_array_form :
    goNext
      { tokens := [{ type := .Identifier, value := some "a", start := 0, «end» := 1 }],
        currentIndex := 0 }
      (.set [.Identifier]) =
      .error (.unexpected [.Identifier] .Identifier) :=
  rfl

/-- Claim C6: parsing the token sequence of `let a function() \x7b\x7d`
(missing `=`) fails with the unexpected-token error reporting expected
`Assign` and actual `Function`, and no program — not even a partial one —
is returned (the error constructor carries no tree). -/
theorem c6_missing_assign :
    runParse "let a function() \x7b\x7d" =
      some (.error (.unexpected [.Assign] .Function)) :=
  rfl

/-- Claim C7: `parse(tokenize("let a = function() \x7b\x7d"))` returns a
program whose body is exactly one `VariableDeclaration` of kind `let`
with exactly one declarator, whose id is the identifier `a` and whose
init is an anonymous function expression (no id) with no parameters and
an empty block body. -/
theorem c7_example_one :
    runParse "let a = function() \x7b\x7d" =
      some (.ok
        { body := [.variableDeclaration (some "let")
            [.mk { name := some "a", start := 4, «end» := .fin 5 }
              (.mk none [] (.mk [] 19 (.fin 21)) 8 (.fin 21)) 0 (.fin 21)]
            0 (.fin 21)],
          start := 0, «end» := .fin 21 }) :=
  rfl

/-- Claim C8: `tokenize` of the empty string returns the empty token
sequence, and `parse` of the empty token sequence returns a program with
empty body, start 0, and the unresolved `Infinity` sentinel as its
`end`. -/
theorem c8_empty_input :
    tokenize "" = .tokens [] ∧
      parse [] = .ok { body := [], start := 0, «end» := .infinity } :=
  ⟨rfl, rfl⟩

/-- Claim C9: in every tree the parse functions return, a block
statement's `end` is the `end` of the closing curly token its parse
consumed last, a function expression's `end` equals its body's `end`, and
a variable declaration's `end` is the `end` of the last token consumed
while parsing it.  The first and third parts locate that token at
position `currentIndex - 1` of the final cursor on the untouched input
token list, the parse having consumed at least one token. -/
theorem c9_span_invariants (fuel : Nat) :
    (∀ st blk st', parseBlockStatement fuel st = .ok (blk, st') →
      st.currentIndex < st'.currentIndex ∧
        ∃ tok : Token, st.tokens.get? (st'.currentIndex - 1) = some tok ∧
          tok.type = .RightCurly ∧ blk.«end» = .fin tok.«end») ∧
    (∀ st fe st', parseFunctionExpression fuel st = .ok (fe, st') →
      fe.«end» = fe.body.«end») ∧
    (∀ st s st', parseVariableDeclaration fuel st = .ok (s, st') →
      st.currentIndex < st'.currentIndex ∧
        ∃ tok : Token, st.tokens.get? (st'.currentIndex - 1) = some tok ∧
          s.«end» = .fin tok.«end») := by
  cases fuel with
  | zero =>
    refine ⟨?_, ?_, ?_⟩ <;> intro st x st' h <;> exact Except.noConfusion h
  | succ f =>
    refine ⟨?_, ?_, ?_⟩
    · intro st blk st' h
      simp only [parseBlockStatement] at h
      split at h
      · exact Except.noConfusion h
      · rename_i cur hcur
        split at h
        · exact Except.noConfusion h
        · rename_i v1 st1 hg1
          split at h
          · exact Except.noConfusion h
          · rename_i body st2 hloop
            split at h
            · exact Except.noConfusion h
            · rename_i closeTok hclose
              split at h
              · exact Except.noConfusion h
              · rename_i v3 st3 hg3
                rw [Except.ok.injEq, Prod.mk.injEq] at h
                obtain ⟨hblk, hst'⟩ := h
                subst hblk; subst hst'
                obtain ⟨-, -, hst1⟩ := goNext_single_ok hg1
                obtain ⟨ht2, hi2⟩ :=
                  ((parseFuns_invariant f).2.2.2.2) st1 (body, st2) hloop
                obtain ⟨hcg, hty3, hst3⟩ := goNext_single_ok hg3
                have hv3 : closeTok = v3 := by
                  rw [hclose] at hcg
                  exact (Option.some.injEq _ _).mp hcg
                have t1 : st1.tokens = st.tokens := by rw [hst1]
                have i1 : st1.currentIndex = st.currentIndex + 1 := by rw [hst1]
                have t3 : st3.tokens = st2.tokens := by rw [hst3]
                have i3 : st3.currentIndex = st2.currentIndex + 1 := by rw [hst3]
                have ht2' : st2.tokens = st1.tokens := ht2
                have hi2' : st1.currentIndex ≤ st2.currentIndex := hi2
                refine ⟨by omega, closeTok, ?_, ?_, rfl⟩
                · have hidx : st3.currentIndex - 1 = st2.currentIndex := by omega
                  rw [hidx]
                  have hclose' : st2.tokens.get? st2.currentIndex = some closeTok :=
                    hclose
                  rw [ht2', t1] at hclose'
                  exact hclose'
                · rw [hv3]
                  exact hty3
    · intro st fe st' h
      simp only [parseFunctionExpression] at h
      split at h
      · exact Except.noConfusion h
      · rename_i cur hcur
        split at h
        · exact Except.noConfusion h
        · rename_i v1 st1 hg1
          split at h
          · exact Except.noConfusion h
          · rename_i id st2 heq
            split at h
            · exact Except.noConfusion h
            · rename_i params st3 hpp
              split at h
              · exact Except.noConfusion h
              · rename_i body st4 hbs
                rw [Except.ok.injEq, Prod.mk.injEq] at h
                obtain ⟨hfe, hst'⟩ := h
                subst hfe; subst hst'
                rfl
    · intro st s st' h
      simp only [parseVariableDeclaration] at h
      split at h
      · exact Except.noConfusion h
      · rename_i cur hcur
        split at h
        · exact Except.noConfusion h
        · rename_i v1 st1 hg1
          split at h
          · exact Except.noConfusion h
          · rename_i idn st2 hid
            split at h
            · exact Except.noConfusion h
            · rename_i v3 st3 hg3
              split at h
              · exact Except.noConfusion h
              · rename_i initFe st4 hfe
                split at h
                · exact Except.noConfusion h
                · rename_i prev hprev
                  rw [Except.ok.injEq, Prod.mk.injEq] at h
                  obtain ⟨hs, hst'⟩ := h
                  subst hs; subst hst'
                  obtain ⟨-, -, hst1⟩ := goNext_single_ok hg1
                  obtain ⟨ht2, hi2⟩ := parseIdentifier_ok hid
                  obtain ⟨-, -, hst3⟩ := goNext_single_ok hg3
                  obtain ⟨ht4, hi4⟩ :=
                    ((parseFuns_invariant f).2.2.1) st3 (initFe, st4) hfe
                  have t1 : st1.tokens = st.tokens := by rw [hst1]
                  have i1 : st1.currentIndex = st.currentIndex + 1 := by rw [hst1]
                  have t3 : st3.tokens = st2.tokens := by rw [hst3]
                  have i3 : st3.currentIndex = st2.currentIndex + 1 := by rw [hst3]
                  have ht4' : st4.tokens = st3.tokens := ht4
                  have hi4' : st3.currentIndex ≤ st4.currentIndex := hi4
                  have hprev' : st4.tokens.get? (st4.currentIndex - 1) = some prev := by
                    simp only [PState.previousToken?] at hprev
                    split at hprev
                    · exact Option.noConfusion hprev
                    · exact hprev
                  refine ⟨by omega, prev, ?_, rfl⟩
                  rw [ht4', t3, ht2, t1] at hprev'
                  exact hprev'

/-- Witness for the span invariants: the three parts applied to the
parse of Example 1, the hypotheses holding by evaluation. -/
theorem c9_span_invariants_witness :
    ((6 : Nat) < 8 ∧
      ∃ tok : Token, exampleTokens.get? 7 = some tok ∧
        tok.type = .RightCurly ∧ exampleBlock.«end» = .fin tok.«end») ∧
    (exampleFun.«end» = exampleFun.body.«end») ∧
    ((0 : Nat) < 8 ∧
      ∃ tok : Token, exampleTokens.get? 7 = some tok ∧
        exampleDecl.«end» = .fin tok.«end») :=
  ⟨(c9_span_invariants 9).1 ⟨exampleTokens, 6⟩ exampleBlock ⟨exampleTokens, 8⟩
      (by rfl),
   (c9_span_invariants 9).2.1 ⟨exampleTokens, 3⟩ exampleFun ⟨exampleTokens, 8⟩
      (by rfl),
   (c9_span_invariants 9).2.2 ⟨exampleTokens, 0⟩ exampleDecl ⟨exampleTokens, 8⟩
      (by rfl)⟩

/-- Claim C10: the parse never mutates its input.  The constructor's copy
of the caller's array is value-identical, a failure carries no state, and
a successful run of the program parser ends in a state still carrying the
very token list it started from: no parse function ever constructs a
state with a different token list. -/
theorem c10_reads_only (fuel : Nat) (st : PState) (r : Program × PState)
    (h : parseProgram fuel st = .ok r) : r.2.tokens = st.tokens := by
  simp only [parseProgram] at h
  split at h
  · exact Except.noConfusion h
  · rename_i body e st' hloop
    rw [Except.ok.injEq] at h
    subst h
    exact parseProgramLoop_invariant fuel st (body, e, st') hloop

/-- Witness: the program parse of Example 1 ends in a state carrying the
input token list unchanged. -/
theorem c10_reads_only_witness :
    (⟨exampleTokens, 8⟩ : PState).tokens = exampleTokens :=
  c10_reads_only (parserFuel exampleTokens) ⟨exampleTokens, 0⟩
    (exampleProgram, ⟨exampleTokens, 8⟩) (by rfl)

end MiniAst
